import Mathlib

/-!
# Verification of the news-digest bot core (src/main.py)

The Python source is shallowly embedded: pure helpers become Lean
functions, and the run's externally visible effects (message delivery,
file persistence) become explicit outcome values.  External libraries
(dateutil's timestamp parsing, langdetect's language guess) are
parameters of the embedding; instants are modelled as `Int` seconds,
so `timedelta(hours=12)` is `12 * 3600` and `timedelta(days=KEEP_DAYS)`
is `KEEP_DAYS * 86400`.  Python's falsy test on an optional string
(`if not ts`) conflates a missing field with the empty string, so
optional string fields that are only ever tested for truthiness are
modelled as `String` with `""` standing for "missing or empty".
-/

/-! ## String helpers shared by the normalizers (src/main.py lines 32-44)

Recursions below that are not structural in the character list carry an
explicit fuel argument, initialised to the list length (an upper bound
on the number of steps), so that every definition is structurally
recursive and reduces inside the kernel. -/

/-- Python `str.strip()`: drop whitespace from both ends. -/
def pyStrip (s : String) : String :=
  String.mk (((s.data.dropWhile Char.isWhitespace).reverse.dropWhile
    Char.isWhitespace).reverse)

/-- Python `str.lower()` (ASCII case folding, which is what
    `Char.toLower` performs; the keys and queries here are ASCII). -/
def pyLower (s : String) : String := String.mk (s.data.map Char.toLower)

/-- One scan step of `re.sub(r"\s+", " ", t)`: the flag records whether
    the previous character was whitespace, so that a maximal run of
    whitespace emits a single space at its first character. -/
def collapseWsAux : Bool → List Char → List Char
  | _, [] => []
  | prevWs, c :: rest =>
    if c.isWhitespace then
      (if prevWs then [] else [' ']) ++ collapseWsAux true rest
    else c :: collapseWsAux false rest

/-- Models `re.sub(r"\s+", " ", t)`: each maximal whitespace run becomes one space. -/
def collapseWs (s : String) : String := String.mk (collapseWsAux false s.data)

/-- Scan for the closing delimiter: `[^c]*c`, returning the suffix after
    the first occurrence of `closeC` (the regex content class excludes
    `closeC`, so the match always ends at the first occurrence). -/
def splitAfterClose (closeC : Char) : List Char → Option (List Char)
  | [] => none
  | c :: rest => if c = closeC then some rest else splitAfterClose closeC rest

/-- Models `re.sub(r"\[[^\]]*\]", " ", t)` (and the same for parentheses):
    each non-overlapping match, from an opening delimiter to the first
    closing delimiter after it, is replaced by a single space; an opening
    delimiter with no later closing delimiter matches nothing and is
    kept.  The fuel starts at the list length, which every step exceeds,
    so the `0, l` case is unreachable. -/
def removeDelimsGo (openC closeC : Char) : Nat → List Char → List Char
  | _, [] => []
  | 0, l => l
  | fuel + 1, c :: rest =>
    if c = openC then
      match splitAfterClose closeC rest with
      | some rest' => ' ' :: removeDelimsGo openC closeC fuel rest'
      | none => c :: removeDelimsGo openC closeC fuel rest
    else c :: removeDelimsGo openC closeC fuel rest

def removeDelims (openC closeC : Char) (l : List Char) : List Char :=
  removeDelimsGo openC closeC l.length l

/-- Models `re.sub(r"#.*$", "", url)` applied to a stripped (single-line) URL:
    everything from the first `#` on is removed. -/
def dropFragment : List Char → List Char
  | [] => []
  | c :: rest => if c = '#' then [] else c :: dropFragment rest

/-! ## Fingerprint generator (src/main.py lines 32-54) -/

/-- Embeds `normalize_url` (src/main.py lines 32-35): strip surrounding
    whitespace, then drop a `#...` fragment suffix. -/
def normalize_url (url : String) : String :=
  String.mk (dropFragment (pyStrip url).data)

/-- Embeds `normalize_title` (src/main.py lines 38-44): strip, lowercase,
    collapse whitespace, blank out `[...]` and `(...)` substrings,
    collapse whitespace again and strip.  (Case folding is modelled for
    ASCII letters, which is what `Char.toLower` performs.) -/
def normalize_title (title : String) : String :=
  let t := pyLower (pyStrip title)
  let t := collapseWs t
  let t := String.mk (removeDelims '[' ']' t.data)
  let t := String.mk (removeDelims '(' ')' t.data)
  pyStrip (collapseWs t)

/-! ### SHA-256 (`hashlib.sha256(...).hexdigest()`, src/main.py lines 47-48)

Machine words are `Nat` reduced mod `2^32` at each operation. -/

/-- Truncate to a 32-bit word. -/
def w32 (n : Nat) : Nat := n % 4294967296

/-- The 32-bit right rotation (input assumed `< 2^32`). -/
def rotr32 (n x : Nat) : Nat := w32 ((x >>> n) ||| (x <<< (32 - n)))

/-- The sixty-four SHA-256 round constants (FIPS 180-4, written in
    decimal). -/
def sha256K : List Nat := [
  1116352408, 1899447441, 3049323471, 3921009573, 961987163,
  1508970993, 2453635748, 2870763221, 3624381080, 310598401,
  607225278, 1426881987, 1925078388, 2162078206, 2614888103,
  3248222580, 3835390401, 4022224774, 264347078, 604807628,
  770255983, 1249150122, 1555081692, 1996064986, 2554220882,
  2821834349, 2952996808, 3210313671, 3336571891, 3584528711,
  113926993, 338241895, 666307205, 773529912, 1294757372,
  1396182291, 1695183700, 1986661051, 2177026350, 2456956037,
  2730485921, 2820302411, 3259730800, 3345764771, 3516065817,
  3600352804, 4094571909, 275423344, 430227734, 506948616,
  659060556, 883997877, 958139571, 1322822218, 1537002063,
  1747873779, 1955562222, 2024104815, 2227730452, 2361852424,
  2428436474, 2756734187, 3204031479, 3329325298]

/-- The eight SHA-256 initial hash words (FIPS 180-4, decimal). -/
def sha256H0 : List Nat := [
  1779033703, 3144134277, 1013904242, 2773480762, 1359893119,
  2600822924, 528734635, 1541459225]

/-- UTF-8 encoding of one code point (Python `str.encode("utf-8")`). -/
def utf8Encode (c : Char) : List Nat :=
  let n := c.toNat
  if n < 128 then [n]
  else if n < 2048 then [192 + n / 64, 128 + n % 64]
  else if n < 65536 then [224 + n / 4096, 128 + (n / 64) % 64, 128 + n % 64]
  else [240 + n / 262144, 128 + (n / 4096) % 64, 128 + (n / 64) % 64, 128 + n % 64]

/-- UTF-8 bytes of a string. -/
def strBytes (s : String) : List Nat := (s.data.map utf8Encode).flatten

/-- SHA-256 padding: append `0x80`, zero bytes, and the 64-bit big-endian
    bit length, up to a multiple of 64 bytes. -/
def padMessage (msg : List Nat) : List Nat :=
  let L := msg.length
  let k := (56 + 64 - (L + 1) % 64) % 64
  msg ++ [128] ++ List.replicate k 0 ++
    (List.range 8).map (fun i => ((8 * L) >>> (8 * (7 - i))) % 256)

/-- Big-endian 32-bit words from bytes. -/
def words32 : List Nat → List Nat
  | b0 :: b1 :: b2 :: b3 :: rest =>
    (b0 * 16777216 + b1 * 65536 + b2 * 256 + b3) :: words32 rest
  | _ => []

/-- Split into 64-byte chunks (fuel-bounded; the fuel starts at the list
    length, which bounds the number of chunks). -/
def chunks64Go : Nat → List Nat → List (List Nat)
  | _, [] => []
  | 0, _ => []
  | fuel + 1, l => l.take 64 :: chunks64Go fuel (l.drop 64)

def chunks64 (l : List Nat) : List (List Nat) := chunks64Go l.length l

/-- Extend the message schedule by one word. -/
def stepW (w : List Nat) : List Nat :=
  let i := w.length
  let g := fun (j : Nat) => w.getD (i - j) 0
  let s0 := (rotr32 7 (g 15)) ^^^ (rotr32 18 (g 15)) ^^^ ((g 15) >>> 3)
  let s1 := (rotr32 17 (g 2)) ^^^ (rotr32 19 (g 2)) ^^^ ((g 2) >>> 10)
  w ++ [w32 (g 16 + s0 + g 7 + s1)]

/-- Iterate `stepW`. -/
def extendW : Nat → List Nat → List Nat
  | 0, w => w
  | n + 1, w => extendW n (stepW w)

/-- One SHA-256 compression round. -/
def compressStep (st : List Nat) (ki wi : Nat) : List Nat :=
  match st with
  | [a, b, c, d, e, f, g, h] =>
    let S1 := (rotr32 6 e) ^^^ (rotr32 11 e) ^^^ (rotr32 25 e)
    let ch := (e &&& f) ^^^ ((e ^^^ 4294967295) &&& g)
    let temp1 := w32 (h + S1 + ch + ki + wi)
    let S0 := (rotr32 2 a) ^^^ (rotr32 13 a) ^^^ (rotr32 22 a)
    let maj := (a &&& b) ^^^ (a &&& c) ^^^ (b &&& c)
    let temp2 := w32 (S0 + maj)
    [w32 (temp1 + temp2), a, b, c, w32 (d + temp1), e, f, g]
  | _ => st

/-- Process one 64-byte chunk. -/
def compressChunk (H : List Nat) (chunk : List Nat) : List Nat :=
  let w := extendW 48 (words32 chunk)
  let st := (sha256K.zip w).foldl (fun st kw => compressStep st kw.1 kw.2) H
  (H.zip st).map (fun p => w32 (p.1 + p.2))

/-- Lowercase hex digit. -/
def hexChar (n : Nat) : Char :=
  if n < 10 then Char.ofNat (48 + n) else Char.ofNat (87 + n)

/-- Eight lowercase hex digits of a 32-bit word (big-endian nibbles). -/
def wordHex (w : Nat) : List Char :=
  (List.range 8).map (fun i => hexChar ((w >>> (4 * (7 - i))) % 16))

/-- Embeds `sha` (src/main.py lines 47-48): `hashlib.sha256(s.encode("utf-8")).hexdigest()`. -/
def sha (s : String) : String :=
  let H := (chunks64 (padMessage (strBytes s))).foldl compressChunk sha256H0
  String.mk ((H.map wordHex).flatten)

/-- Embeds `make_keys` (src/main.py lines 51-54).  Note the guards test the RAW
    `url` / `title` for Python truthiness (non-emptiness), not the
    normalized strings. -/
def make_keys (url : String) (title : String) : String × String :=
  (if url ≠ "" then sha ("url::" ++ normalize_url url) else "",
   if title ≠ "" then sha ("title::" ++ normalize_title title) else "")

/-! ## Seen-set store (src/main.py lines 15, 23, 57-86)

A persisted item is a dict `{ts, url_key, title_key, url, title}`; every
field is read back only through `.get(...)` followed by a Python truthy
test, so a missing field and the empty string are indistinguishable and
both are modelled as `""`. -/

/-- One entry of the persisted seen-set. -/
structure SeenItem where
  ts : String
  url_key : String
  title_key : String
  url : String
  title : String
deriving DecidableEq, Repr

/-- The constant `KEEP_DAYS` (src/main.py line 23). -/
def KEEP_DAYS : Int := 45

/-- The kept/dropped test of the `prune_seen` loop body (src/main.py
    lines 73-85): keep an item exactly when its `ts` field is present
    (non-empty) and parses, and the parsed instant is at or after
    `now - timedelta(days=KEEP_DAYS)`.  `dtparser.parse` is the external
    dateutil parser, passed in as `parse`; timezone attachment and the
    `astimezone(KST)` conversion do not move the instant being compared. -/
def keepSeen (parse : String → Option Int) (now : Int) (it : SeenItem) : Bool :=
  if it.ts = "" then false
  else
    match parse it.ts with
    | none => false
    | some dt => decide (now - KEEP_DAYS * 86400 ≤ dt)

/-- Embeds `prune_seen` (src/main.py lines 70-86). -/
def prune_seen (parse : String → Option Int) (items : List SeenItem) (now : Int) :
    List SeenItem :=
  items.filter (keepSeen parse now)

/-- Embeds `{it.get("url_key") for it in seen_items if it.get("url_key")}`
    (src/main.py line 145); only membership in the set is ever used, so a
    duplicate-preserving list is an adequate model. -/
def seen_url_keys (items : List SeenItem) : List String :=
  (items.filter (fun it => it.url_key ≠ "")).map (fun it => it.url_key)

/-- Embeds `{it.get("title_key") for it in seen_items if it.get("title_key")}`
    (src/main.py line 146). -/
def seen_title_keys (items : List SeenItem) : List String :=
  (items.filter (fun it => it.title_key ≠ "")).map (fun it => it.title_key)

/-! ## Feed entries and the per-entry helpers (src/main.py lines 89-111, 154-163) -/

/-- A fetched feed entry as the main loop reads it: `getattr(e, "title", "")`,
    `getattr(e, "link", "")`, `getattr(e, "summary", "")`, and the optional
    `published` / `updated` strings (absent attribute or empty string both
    behave as missing, hence `""`). -/
structure Entry where
  title : String
  link : String
  summary : String
  published : String
  updated : String
deriving DecidableEq, Repr

/-- One field attempt inside `parse_published`: skip a falsy value, and
    treat a parse failure as a miss. -/
def tryParseField (parse : String → Option Int) (v : String) : Option Int :=
  if v = "" then none else parse v

/-- Embeds `parse_published` (src/main.py lines 99-111): first of `published`,
    `updated` that is present and parses; otherwise `None`. -/
def parse_published (parse : String → Option Int) (e : Entry) : Option Int :=
  match tryParseField parse e.published with
  | some dt => some dt
  | none => tryParseField parse e.updated

/-- Scan to the first `>` (failing at a `<` or at the end), for the
    shortest-match tag regex. -/
def tagScan : List Char → Option (List Char)
  | [] => none
  | c :: rest => if c = '>' then some rest else if c = '<' then none else tagScan rest

/-- The shortest match for `<[^<]+?>` starting right after a `<`: at
    least one non-`<` character (which may itself be `>`), then the first
    `>` closes the tag; a `<` or the end of input before that close means
    no match starts at this `<`. -/
def tagClose : List Char → Option (List Char)
  | [] => none
  | c :: rest => if c = '<' then none else tagScan rest

/-- The scan for all tag matches (fuel-bounded like `removeDelimsGo`;
    a successful `tagClose` always strictly shortens the list, so fuel
    equal to the list length never runs out). -/
def stripTagsGo : Nat → List Char → List Char
  | _, [] => []
  | 0, l => l
  | fuel + 1, c :: rest =>
    if c = '<' then
      match tagClose rest with
      | some rest' => ' ' :: stripTagsGo fuel rest'
      | none => c :: stripTagsGo fuel rest
    else c :: stripTagsGo fuel rest

/-- Embeds `re.sub('<[^<]+?>', ' ', summary)` (src/main.py line 163). -/
def stripTags (s : String) : String := String.mk (stripTagsGo s.data.length s.data)


/-- The Hangul-syllable test `re.search(r"[가-힣]", text)`
    (src/main.py line 91): code points U+AC00 through U+D7A3. -/
def containsHangul (text : String) : Bool :=
  text.data.any (fun c => decide (44032 ≤ c.toNat ∧ c.toNat ≤ 55203))

/-- Embeds `is_korean` (src/main.py lines 89-96): Hangul script range, falling
    back to the external `langdetect` guess (`detect(text) == "ko"`,
    with `LangDetectException` giving `False`), modelled as `detectKo`. -/
def is_korean (detectKo : String → Bool) (text : String) : Bool :=
  containsHangul text || detectKo text

/-! ## Candidate filter: the per-entry body of the main loop
  (src/main.py lines 154-188) -/

/-- An accepted candidate as appended to `collected`
    (src/main.py lines 182-188). -/
structure Candidate where
  title : String
  url : String
  published : Int
  url_key : String
  title_key : String
deriving DecidableEq, Repr

/-- The in-memory per-run state: the two batch key sets
    (src/main.py lines 148-149; Python `set`s used only through `in` and
    `.add`, modelled as lists with `List.insert`) and the `collected`
    accumulator (line 151). -/
structure BatchState where
  batch_url_keys : List String
  batch_title_keys : List String
  collected : List Candidate
deriving DecidableEq, Repr

/-- The initial per-run state. -/
def emptyBatch : BatchState := ⟨[], [], []⟩

/-- The language-check text `f"{title}\n{re.sub('<[^<]+?>', ' ', summary)}".strip()`
    (src/main.py line 163), built from the already-stripped title. -/
def langText (e : Entry) : String :=
  pyStrip (pyStrip e.title ++ "\n" ++ stripTags e.summary)

/-- One iteration of the entry loop (src/main.py lines 154-188): recency
    gate, language gate, same-run dedup against the batch key sets,
    cross-run dedup against the seen key sets, then registration and
    collection.  `parse` and `detectKo` stand for dateutil and langdetect. -/
def processEntry (parse : String → Option Int) (detectKo : String → Bool)
    (now : Int) (seenU seenT : List String) (st : BatchState) (e : Entry) :
    BatchState :=
  let title := pyStrip e.title
  let url := pyStrip e.link
  match parse_published parse e with
  | none => st
  | some pub =>
    if pub < now - 12 * 3600 then st
    else if is_korean detectKo (langText e) then st
    else
      let uk := (make_keys url title).1
      let tk := (make_keys url title).2
      if uk ≠ "" ∧ uk ∈ st.batch_url_keys then st
      else if tk ≠ "" ∧ tk ∈ st.batch_title_keys then st
      else if uk ≠ "" ∧ uk ∈ seenU then st
      else if tk ≠ "" ∧ tk ∈ seenT then st
      else
        { batch_url_keys := st.batch_url_keys.insert uk
          batch_title_keys := st.batch_title_keys.insert tk
          collected := st.collected ++ [⟨title, url, pub, uk, tk⟩] }

/-- The whole entry loop over the flattened fetch results (feed retrieval
    is external I/O; `entries` is the concatenation, in order, of the
    entries of the three query feeds). -/
def processBatch (parse : String → Option Int) (detectKo : String → Bool)
    (now : Int) (seenU seenT : List String) (entries : List Entry) : BatchState :=
  entries.foldl (processEntry parse detectKo now seenU seenT) emptyBatch

/-! ## Digest assembly and the run outcome (src/main.py lines 190-219) -/

/-- Embeds `collected.sort(key=lambda x: x["published"], reverse=True)`
    (src/main.py line 199): Python's sort is stable, and `reverse=True`
    keeps the original order of equal keys, so it is the stable
    descending sort — insert each element before the first strictly
    older one. -/
def sortDesc (l : List Candidate) : List Candidate :=
  List.insertionSort (fun a b => b.published ≤ a.published) l

/-- Embeds `collected[:MAX_ITEMS]` after the sort (src/main.py line 200). -/
def assembleDigest (maxItems : Nat) (l : List Candidate) : List Candidate :=
  (sortDesc l).take maxItems

/-- The default of `MAX_ITEMS = int(os.environ.get("MAX_ITEMS", "20"))`
    (src/main.py line 24); the environment override is a run parameter. -/
def MAX_ITEMS_default : Nat := 20

/-- The seen-set entry appended for a delivered digest item
    (src/main.py lines 210-217); `nowStr` is `now.isoformat()`. -/
def toSeenItem (nowStr : String) (c : Candidate) : SeenItem :=
  { ts := nowStr
    url_key := c.url_key
    title_key := c.title_key
    url := c.url
    title := c.title }

/-- Run parameters: the two external library functions, the `MAX_ITEMS`
    configuration, and whether `telegram_send_message` succeeds (when it
    raises, the exception propagates out of `main`). -/
structure RunConfig where
  parse : String → Option Int
  detectKo : String → Bool
  maxItems : Nat
  sendOk : Bool

/-- How a run of `main` ends, as far as persistence and delivery go:
    the send raised (exception propagates, nothing saved), the empty
    digest notice was sent and `main` returned without saving
    (src/main.py lines 190-197), or the digest was delivered and
    `save_seen` was called with the given items (lines 208-219). -/
inductive RunOutcome where
  | sendFailed : RunOutcome
  | noNew : RunOutcome
  | delivered : List SeenItem → RunOutcome
deriving DecidableEq, Repr

/-- Embeds `main` (src/main.py lines 137-219) from the load onward: `disk` is
    the parsed content of `seen.json` (`load_seen`), `now` the current
    instant and `nowStr` its `isoformat()`, `entries` the fetched feed
    entries in order. -/
def runMain (cfg : RunConfig) (now : Int) (nowStr : String)
    (disk : List SeenItem) (entries : List Entry) : RunOutcome :=
  let seen_items := prune_seen cfg.parse disk now
  let seenU := seen_url_keys seen_items
  let seenT := seen_title_keys seen_items
  let st := processBatch cfg.parse cfg.detectKo now seenU seenT entries
  if st.collected = [] then
    if cfg.sendOk then RunOutcome.noNew else RunOutcome.sendFailed
  else
    let digest := assembleDigest cfg.maxItems st.collected
    if cfg.sendOk then
      RunOutcome.delivered (seen_items ++ digest.map (toSeenItem nowStr))
    else RunOutcome.sendFailed

/-- Whether the run called `save_seen`. -/
def saveCalled : RunOutcome → Bool
  | RunOutcome.delivered _ => true
  | _ => false

/-- The persisted seen-set after the run: only a completed `save_seen`
    replaces the prior disk state. -/
def persistedAfter (disk : List SeenItem) : RunOutcome → List SeenItem
  | RunOutcome.delivered s => s
  | _ => disk

/-! ## Persistence of the store file (src/main.py lines 65-67)

`save_seen` is `open(SEEN_PATH, "w")` followed by `json.dump`: opening
with mode `"w"` truncates the file in place, and the dump is then
written into it.  The file is modelled by its content (`none` =
missing), and the two steps are explicit so that the state between them
— what a crash during `save_seen` leaves behind — is expressible. -/

/-- File content; `none` means the file does not exist. -/
def FileState : Type := Option String

/-- The JSON text `json.dump({"items": items}, ...)` writes for one item
    (string escaping and the `indent=2` layout are immaterial here and
    elided; what matters is that the dump is one full, non-empty
    document). -/
def itemJson (it : SeenItem) : String :=
  "\x7b\"ts\": \"" ++ it.ts ++ "\", \"url_key\": \"" ++ it.url_key ++
    "\", \"title_key\": \"" ++ it.title_key ++ "\", \"url\": \"" ++ it.url ++
    "\", \"title\": \"" ++ it.title ++ "\"\x7d"

/-- The full dumped document `json.dump({"items": items}, ...)`. -/
def dumpSeen (items : List SeenItem) : String :=
  "\x7b\"items\": [" ++ String.intercalate ", " (items.map itemJson) ++ "]\x7d"

/-- Models `open(SEEN_PATH, "w", ...)`: creates or truncates the file. -/
def save_open (fs : FileState) : FileState := some ""

/-- The completed `json.dump` into the opened file. -/
def save_write (items : List SeenItem) (fs : FileState) : FileState :=
  some (dumpSeen items)

/-- Embeds `save_seen` (src/main.py lines 65-67): truncate, then write. -/
def save_seen (items : List SeenItem) (fs : FileState) : FileState :=
  save_write items (save_open fs)

/-! ## Concrete instantiations used by witnesses

`dtparser.parse` accepts many formats; for fully concrete runs a small
stand-in suffices that parses an optionally signed decimal count of
seconds.  langdetect is instantiated by the constant `false` guess. -/

def natFromDigitsAux : List Char → Nat → Option Nat
  | [], acc => some acc
  | c :: rest, acc =>
    if c.isDigit then natFromDigitsAux rest (acc * 10 + (c.toNat - 48)) else none

/-- A concrete timestamp parse function: an optionally `-`-signed decimal
    string of seconds; everything else fails to parse. -/
def parseIntStr (s : String) : Option Int :=
  match s.data with
  | [] => none
  | '-' :: rest =>
    match rest with
    | [] => none
    | _ => (natFromDigitsAux rest 0).map (fun n => -(n : Int))
  | l => (natFromDigitsAux l 0).map (fun n => (n : Int))

/-- A concrete run configuration with a succeeding send. -/
def cfgOk : RunConfig := ⟨parseIntStr, fun _ => false, 20, true⟩

/-- A concrete run configuration whose `telegram_send_message` raises. -/
def cfgFail : RunConfig := ⟨parseIntStr, fun _ => false, 20, false⟩

/-- An entry with every text field empty, published at instant `0`. -/
def eEmpty : Entry := ⟨"", "", "", "0", ""⟩

/-- An entry with a URL but an empty title, published at instant `0`. -/
def eUrl : Entry := ⟨"", "http://a", "", "0", ""⟩

/-- An entry published exactly twelve hours before instant `0`. -/
def eBoundary : Entry := ⟨"", "", "", "-43200", ""⟩

/-- A seen item far older than the retention window at instant `0`. -/
def staleItem : SeenItem := ⟨"-99999999", "ka", "kt", "http://old", "Old"⟩

/-! ## Helper lemmas -/

theorem wordHex_length (w : Nat) : (wordHex w).length = 8 := by
  simp [wordHex]

theorem compressStep_length {st : List Nat} (h : st.length = 8) (ki wi : Nat) :
    (compressStep st ki wi).length = 8 := by
  rcases st with _ | ⟨a, _ | ⟨b, _ | ⟨c, _ | ⟨d, _ | ⟨e, _ | ⟨f, _ | ⟨g, _ | ⟨hh, _ | ⟨x, t⟩⟩⟩⟩⟩⟩⟩⟩⟩ <;>
    simp_all [compressStep]

theorem foldl_compressStep_length (l : List (Nat × Nat)) :
    ∀ st : List Nat, st.length = 8 →
      (l.foldl (fun st kw => compressStep st kw.1 kw.2) st).length = 8 := by
  induction l with
  | nil => intro st h; simpa using h
  | cons kw l ih =>
    intro st h
    simp only [List.foldl_cons]
    exact ih _ (compressStep_length h kw.1 kw.2)

theorem compressChunk_length {H : List Nat} (h : H.length = 8) (chunk : List Nat) :
    (compressChunk H chunk).length = 8 := by
  simp only [compressChunk]
  rw [List.length_map, List.length_zip, h,
    foldl_compressStep_length _ _ h]
  simp

theorem foldl_compressChunk_length (cs : List (List Nat)) :
    ∀ H : List Nat, H.length = 8 → (cs.foldl compressChunk H).length = 8 := by
  induction cs with
  | nil => intro H h; simpa using h
  | cons c cs ih =>
    intro H h
    simp only [List.foldl_cons]
    exact ih _ (compressChunk_length h c)

theorem flatten_map_wordHex_length (H : List Nat) :
    ((H.map wordHex).flatten).length = 8 * H.length := by
  induction H with
  | nil => simp
  | cons w H ih =>
    simp only [List.map_cons, List.flatten_cons, List.length_append, ih, wordHex_length,
      List.length_cons]
    ring

/-- A hex digest is always 64 characters long. -/
theorem sha_length (s : String) : (sha s).length = 64 := by
  simp only [sha, String.length]
  rw [flatten_map_wordHex_length,
    foldl_compressChunk_length _ _ (by simp [sha256H0])]

/-- In particular a hash is never the empty string, so a non-empty raw
    field always yields a non-empty key. -/
theorem sha_ne_empty (s : String) : sha s ≠ "" := by
  intro h
  have hl := sha_length s
  rw [h] at hl
  simp at hl

theorem make_keys_fst_of_ne {url : String} (h : url ≠ "") (title : String) :
    (make_keys url title).1 = sha ("url::" ++ normalize_url url) := by
  simp [make_keys, h]

theorem make_keys_snd_of_ne {title : String} (h : title ≠ "") (url : String) :
    (make_keys url title).2 = sha ("title::" ++ normalize_title title) := by
  simp [make_keys, h]

theorem make_keys_fst_of_empty (title : String) : (make_keys "" title).1 = "" := by
  simp [make_keys]

/-- The four dedup gates of the filter (src/main.py lines 169-177) as one
    boolean, in the source's order: batch URL, batch title, seen URL,
    seen title, each guarded by non-emptiness of the key (Python
    truthiness short-circuit). -/
def dedupReject (seenU seenT : List String) (st : BatchState) (uk tk : String) : Bool :=
  decide (uk ≠ "" ∧ uk ∈ st.batch_url_keys) ||
  decide (tk ≠ "" ∧ tk ∈ st.batch_title_keys) ||
  decide (uk ≠ "" ∧ uk ∈ seenU) ||
  decide (tk ≠ "" ∧ tk ∈ seenT)

theorem processEntry_accept (parse : String → Option Int) (detectKo : String → Bool)
    (now : Int) (seenU seenT : List String) (st : BatchState) (e : Entry) (pub : Int)
    (hp : parse_published parse e = some pub)
    (hr : ¬ pub < now - 12 * 3600)
    (hl : is_korean detectKo (langText e) = false)
    (hd : dedupReject seenU seenT st (make_keys (pyStrip e.link) (pyStrip e.title)).1
            (make_keys (pyStrip e.link) (pyStrip e.title)).2 = false) :
    processEntry parse detectKo now seenU seenT st e =
      { batch_url_keys :=
          st.batch_url_keys.insert (make_keys (pyStrip e.link) (pyStrip e.title)).1
        batch_title_keys :=
          st.batch_title_keys.insert (make_keys (pyStrip e.link) (pyStrip e.title)).2
        collected := st.collected ++
          [⟨pyStrip e.title, pyStrip e.link, pub,
            (make_keys (pyStrip e.link) (pyStrip e.title)).1,
            (make_keys (pyStrip e.link) (pyStrip e.title)).2⟩] } := by
  simp only [dedupReject, Bool.or_eq_false_iff, decide_eq_false_iff_not] at hd
  obtain ⟨⟨⟨h1, h2⟩, h3⟩, h4⟩ := hd
  simp only [processEntry, hp]
  rw [if_neg hr, if_neg (by simp [hl]), if_neg h1, if_neg h2, if_neg h3, if_neg h4]

theorem processEntry_skip_batch_url (parse : String → Option Int) (detectKo : String → Bool)
    (now : Int) (seenU seenT : List String) (st : BatchState) (e : Entry) (pub : Int)
    (hp : parse_published parse e = some pub)
    (hr : ¬ pub < now - 12 * 3600)
    (hl : is_korean detectKo (langText e) = false)
    (hb : (make_keys (pyStrip e.link) (pyStrip e.title)).1 ≠ "" ∧
          (make_keys (pyStrip e.link) (pyStrip e.title)).1 ∈ st.batch_url_keys) :
    processEntry parse detectKo now seenU seenT st e = st := by
  simp only [processEntry, hp]
  rw [if_neg hr, if_neg (by simp [hl]), if_pos hb]

theorem processEntry_skip_recency (parse : String → Option Int) (detectKo : String → Bool)
    (now : Int) (seenU seenT : List String) (st : BatchState) (e : Entry) (pub : Int)
    (hp : parse_published parse e = some pub)
    (hr : pub < now - 12 * 3600) :
    processEntry parse detectKo now seenU seenT st e = st := by
  simp only [processEntry, hp]
  rw [if_pos hr]

theorem normalize_url_of_empty : normalize_url "" = "" := by decide

/-! ### Properties of the stable descending sort -/

instance instTotalDesc : IsTotal Candidate (fun a b => b.published ≤ a.published) :=
  ⟨fun a b => le_total b.published a.published⟩

instance instTransDesc : IsTrans Candidate (fun a b => b.published ≤ a.published) :=
  ⟨fun _ _ _ hab hbc => le_trans hbc hab⟩

theorem sortDesc_sorted (l : List Candidate) :
    (sortDesc l).Pairwise (fun a b => b.published ≤ a.published) :=
  List.sorted_insertionSort (fun a b : Candidate => b.published ≤ a.published) l

theorem sortDesc_perm (l : List Candidate) : (sortDesc l).Perm l :=
  List.perm_insertionSort (fun a b : Candidate => b.published ≤ a.published) l

theorem filter_orderedInsert_eq (t : Int) (x : Candidate) (l : List Candidate)
    (hx : x.published = t) :
    (List.orderedInsert (fun a b => b.published ≤ a.published) x l).filter
        (fun c => decide (c.published = t)) =
      x :: l.filter (fun c => decide (c.published = t)) := by
  induction l with
  | nil => simp [List.orderedInsert, hx]
  | cons y ys ih =>
    simp only [List.orderedInsert]
    by_cases hyx : y.published ≤ x.published
    · rw [if_pos hyx]
      simp [List.filter_cons, hx]
    · rw [if_neg hyx]
      have hyt : ¬ (y.published = t) := by
        intro hh
        exact hyx (by rw [hh, ← hx])
      simp [List.filter_cons, hyt, ih]

theorem filter_orderedInsert_ne (t : Int) (x : Candidate) (l : List Candidate)
    (hx : ¬ x.published = t) :
    (List.orderedInsert (fun a b => b.published ≤ a.published) x l).filter
        (fun c => decide (c.published = t)) =
      l.filter (fun c => decide (c.published = t)) := by
  induction l with
  | nil => simp [List.orderedInsert, hx]
  | cons y ys ih =>
    simp only [List.orderedInsert]
    by_cases hyx : y.published ≤ x.published
    · rw [if_pos hyx]
      simp [List.filter_cons, hx]
    · rw [if_neg hyx]
      simp [List.filter_cons, ih]

/-- Stability: sorting preserves, for every key value, the original
    relative order of the candidates carrying that key. -/
theorem filter_sortDesc (t : Int) (l : List Candidate) :
    (sortDesc l).filter (fun c => decide (c.published = t)) =
      l.filter (fun c => decide (c.published = t)) := by
  induction l with
  | nil => rfl
  | cons x xs ih =>
    simp only [sortDesc, List.insertionSort] at ih ⊢
    by_cases hx : x.published = t
    · rw [filter_orderedInsert_eq t x _ hx, ih]
      simp [List.filter_cons, hx]
    · rw [filter_orderedInsert_ne t x _ hx, ih]
      simp [List.filter_cons, hx]

theorem sortDesc_take_drop (m : Nat) (l : List Candidate) :
    ∀ a ∈ (sortDesc l).take m, ∀ b ∈ (sortDesc l).drop m, b.published ≤ a.published := by
  have hs := sortDesc_sorted l
  rw [← List.take_append_drop m (sortDesc l)] at hs
  exact (List.pairwise_append.mp hs).2.2

theorem dumpSeen_ne_empty (items : List SeenItem) : dumpSeen items ≠ "" := by
  intro h
  have hlen := congrArg String.length h
  rw [dumpSeen, String.length_append, String.length_append] at hlen
  have h1 : ("\x7b\"items\": [" : String).length = 11 := by decide
  have h2 : ("]\x7d" : String).length = 2 := by decide
  have h3 : ("" : String).length = 0 := by decide
  omega

/-- The `collected` list a run computes before assembling the digest
    (src/main.py lines 144-188): prune the loaded store, build the two
    seen key sets, then run the entry loop. -/
def collectedOf (cfg : RunConfig) (now : Int) (disk : List SeenItem)
    (entries : List Entry) : List Candidate :=
  (processBatch cfg.parse cfg.detectKo now
    (seen_url_keys (prune_seen cfg.parse disk now))
    (seen_title_keys (prune_seen cfg.parse disk now)) entries).collected

/-! ## Claims -/

/-- C5: `prune_seen` keeps exactly the items whose timestamp is present,
    parses, and lies within `KEEP_DAYS` of `now` (`now - ts ≤ KEEP_DAYS`,
    the boundary included); every dropped item either has a missing or
    unparseable timestamp or is older than `now - KEEP_DAYS`. -/
theorem prune_seen_retention (parse : String → Option Int) (items : List SeenItem)
    (now : Int) (it : SeenItem) :
    it ∈ prune_seen parse items now ↔
      it ∈ items ∧ it.ts ≠ "" ∧
        ∃ dt, parse it.ts = some dt ∧ now - dt ≤ KEEP_DAYS * 86400 := by
  simp only [prune_seen, List.mem_filter, keepSeen]
  constructor
  · rintro ⟨hmem, hk⟩
    by_cases hts : it.ts = ""
    · rw [if_pos hts] at hk
      exact absurd hk (by simp)
    · rw [if_neg hts] at hk
      cases hpp : parse it.ts with
      | none => rw [hpp] at hk; simp at hk
      | some dt =>
        rw [hpp] at hk
        simp only [decide_eq_true_eq] at hk
        exact ⟨hmem, hts, dt, rfl, by omega⟩
  · rintro ⟨hmem, hts, dt, hpp, hle⟩
    refine ⟨hmem, ?_⟩
    rw [if_neg hts, hpp]
    simp only [decide_eq_true_eq]
    omega

/-- C7 counterexample: the claim "key is empty iff the normalized input
    is empty" fails — a whitespace-only URL and a title consisting only
    of parenthesized text both normalize to `""` yet receive a hash of
    the empty normalized string, because `make_keys` guards on the raw
    field. -/
theorem key_empty_iff_normalized_cex :
    normalize_url " " = "" ∧ (make_keys " " "x").1 ≠ "" ∧
    normalize_title "(x)" = "" ∧ (make_keys "u" "(x)").2 ≠ "" := by
  exact ⟨by decide, by decide, by decide, by decide⟩

/-- C7 (amended): a fingerprint key is the empty string iff the RAW
    source field is empty (Python truthiness of the unnormalized
    argument); a non-empty field that normalizes to empty gets the
    (non-empty, 64-character) hash of the tagged empty normalized
    string. -/
theorem key_empty_iff_raw_field (url title : String) :
    ((make_keys url title).1 = "" ↔ url = "") ∧
    ((make_keys url title).2 = "" ↔ title = "") := by
  constructor
  · by_cases hu : url = "" <;> simp [make_keys, hu, sha_ne_empty]
  · by_cases ht : title = "" <;> simp [make_keys, ht, sha_ne_empty]

/-- C8 counterexample: `save_seen` is an in-place truncating overwrite,
    not write-new-then-replace: immediately after the `open(..., "w")`
    step the file holds the empty string — neither the prior valid dump
    nor the new one — so a failure before the write completes leaves a
    partially-written (truncated) file for the next `load`. -/
theorem save_partial_state_cex :
    save_open (some (dumpSeen [staleItem])) = some "" ∧
    (some "" : Option String) ≠ some (dumpSeen [staleItem]) ∧
    save_seen [staleItem] (some (dumpSeen [staleItem])) = some (dumpSeen [staleItem]) ∧
    dumpSeen [staleItem] ≠ "" := by
  refine ⟨rfl, ?_, rfl, dumpSeen_ne_empty _⟩
  intro h
  rw [Option.some.injEq] at h
  exact dumpSeen_ne_empty [staleItem] h.symm

/-- C8 (amended): on success `save_seen` fully replaces the prior
    content with the complete dump, but it does so by truncating the
    file in place first (`open` with mode `"w"`), so the intermediate
    state is the empty file — not the dump of any item list — rather
    than the prior content being preserved until an atomic replace. -/
theorem save_seen_overwrites_in_place (items : List SeenItem) (fs : Option String) :
    save_seen items fs = some (dumpSeen items) ∧
    save_open fs = some "" ∧
    dumpSeen items ≠ "" :=
  ⟨rfl, rfl, dumpSeen_ne_empty items⟩

/-- C9: the digest is the stable descending sort of the accepted items
    truncated to `MAX_ITEMS` (default 20): the sorted list is ordered by
    published timestamp descending, preserves the original fetch order
    within equal timestamps (stability, stated per key value), is a
    permutation of the input, and the truncation keeps at most
    `maxItems` items, each at least as recent as every item dropped. -/
theorem digest_sort_truncate_spec (m : Nat) (l : List Candidate) :
    assembleDigest m l = (sortDesc l).take m ∧
    (sortDesc l).Pairwise (fun a b => b.published ≤ a.published) ∧
    (∀ t : Int, (sortDesc l).filter (fun c => decide (c.published = t)) =
        l.filter (fun c => decide (c.published = t))) ∧
    (sortDesc l).Perm l ∧
    (assembleDigest m l).length ≤ m ∧
    (∀ a ∈ assembleDigest m l, ∀ b ∈ (sortDesc l).drop m, b.published ≤ a.published) ∧
    MAX_ITEMS_default = 20 := by
  refine ⟨rfl, sortDesc_sorted l, fun t => filter_sortDesc t l, sortDesc_perm l, ?_,
    sortDesc_take_drop m l, rfl⟩
  simp only [assembleDigest]
  simp [List.length_take]

/-- C1: when `telegram_send_message` raises (on either the empty-digest
    path or the digest path), the run ends with the exception
    propagating, `save_seen` is never called, and the persisted seen-set
    is exactly what it was before the run. -/
theorem notifier_failure_preserves_seen (cfg : RunConfig) (now : Int) (nowStr : String)
    (disk : List SeenItem) (entries : List Entry) (h : cfg.sendOk = false) :
    runMain cfg now nowStr disk entries = RunOutcome.sendFailed ∧
    saveCalled (runMain cfg now nowStr disk entries) = false ∧
    persistedAfter disk (runMain cfg now nowStr disk entries) = disk := by
  have hm : runMain cfg now nowStr disk entries = RunOutcome.sendFailed := by
    simp only [runMain, h]
    split <;> simp
  refine ⟨hm, ?_, ?_⟩ <;> rw [hm] <;> rfl

theorem notifier_failure_preserves_seen_witness :
    cfgFail.sendOk = false ∧
    (runMain cfgFail 0 "t0" [staleItem] [eEmpty] = RunOutcome.sendFailed ∧
     saveCalled (runMain cfgFail 0 "t0" [staleItem] [eEmpty]) = false ∧
     persistedAfter [staleItem] (runMain cfgFail 0 "t0" [staleItem] [eEmpty]) = [staleItem]) :=
  ⟨rfl, notifier_failure_preserves_seen cfgFail 0 "t0" [staleItem] [eEmpty] rfl⟩

/-- C2 counterexample: an entry whose published instant is exactly
    `now - 12h` is NOT rejected — with everything else passing it is
    accepted into `collected` — because the code rejects only on the
    strict comparison `published_dt < cutoff_12h`. -/
theorem recency_boundary_cex :
    parse_published cfgOk.parse eBoundary = some (0 - 12 * 3600) ∧
    (processBatch cfgOk.parse cfgOk.detectKo 0 [] [] [eBoundary]).collected.length = 1 := by
  exact ⟨by decide, by decide⟩

/-- C2 (amended): the recency gate rejects exactly the candidates whose
    published instant is strictly before `now - 12h`; a candidate at
    exactly the cutoff passes the recency gate and, when the language
    and dedup gates also pass, is accepted. -/
theorem recency_boundary_behavior (parse : String → Option Int) (detectKo : String → Bool)
    (now : Int) (seenU seenT : List String) (st : BatchState) (e : Entry) (pub : Int)
    (hp : parse_published parse e = some pub) :
    (pub < now - 12 * 3600 → processEntry parse detectKo now seenU seenT st e = st) ∧
    (pub = now - 12 * 3600 →
      is_korean detectKo (langText e) = false →
      dedupReject seenU seenT st (make_keys (pyStrip e.link) (pyStrip e.title)).1
          (make_keys (pyStrip e.link) (pyStrip e.title)).2 = false →
      (processEntry parse detectKo now seenU seenT st e).collected =
        st.collected ++ [⟨pyStrip e.title, pyStrip e.link, pub,
          (make_keys (pyStrip e.link) (pyStrip e.title)).1,
          (make_keys (pyStrip e.link) (pyStrip e.title)).2⟩]) := by
  constructor
  · intro hr
    exact processEntry_skip_recency parse detectKo now seenU seenT st e pub hp hr
  · intro hb hl hd
    rw [processEntry_accept parse detectKo now seenU seenT st e pub hp (by omega) hl hd]

theorem recency_boundary_behavior_witness :
    parse_published cfgOk.parse eBoundary = some (-43200) ∧
    (((-43200 : Int) < 0 - 12 * 3600 →
        processEntry cfgOk.parse cfgOk.detectKo 0 [] [] emptyBatch eBoundary = emptyBatch) ∧
     ((-43200 : Int) = 0 - 12 * 3600 →
        is_korean cfgOk.detectKo (langText eBoundary) = false →
        dedupReject [] [] emptyBatch
            (make_keys (pyStrip eBoundary.link) (pyStrip eBoundary.title)).1
            (make_keys (pyStrip eBoundary.link) (pyStrip eBoundary.title)).2 = false →
        (processEntry cfgOk.parse cfgOk.detectKo 0 [] [] emptyBatch eBoundary).collected =
          emptyBatch.collected ++ [⟨pyStrip eBoundary.title, pyStrip eBoundary.link, -43200,
            (make_keys (pyStrip eBoundary.link) (pyStrip eBoundary.title)).1,
            (make_keys (pyStrip eBoundary.link) (pyStrip eBoundary.title)).2⟩])) :=
  ⟨by decide,
   recency_boundary_behavior cfgOk.parse cfgOk.detectKo 0 [] [] emptyBatch eBoundary
     (-43200) (by decide)⟩

/-- Acceptance and the title-side bookkeeping of an empty-URL entry are
    oblivious to both URL key sets: with `url_key = ""`, the two URL
    membership gates are short-circuited by the non-emptiness guard, so
    neither the seen URL keys nor the batch URL keys influence the
    outcome. -/
theorem processEntry_empty_url_invariant (parse : String → Option Int)
    (detectKo : String → Bool) (now : Int) (seenT bT : List String)
    (c : List Candidate) (e : Entry) (he : pyStrip e.link = "")
    (seenU seenU' bU bU' : List String) :
    (processEntry parse detectKo now seenU seenT ⟨bU, bT, c⟩ e).collected =
      (processEntry parse detectKo now seenU' seenT ⟨bU', bT, c⟩ e).collected ∧
    (processEntry parse detectKo now seenU seenT ⟨bU, bT, c⟩ e).batch_title_keys =
      (processEntry parse detectKo now seenU' seenT ⟨bU', bT, c⟩ e).batch_title_keys := by
  have huk : (make_keys (pyStrip e.link) (pyStrip e.title)).1 = "" := by
    rw [he]
    exact make_keys_fst_of_empty _
  cases hpp : parse_published parse e with
  | none =>
    simp only [processEntry, hpp]
    exact ⟨trivial, trivial⟩
  | some pub =>
    by_cases hr : pub < now - 12 * 3600
    · simp only [processEntry, hpp]
      rw [if_pos hr, if_pos hr]
      exact ⟨rfl, rfl⟩
    · by_cases hl : is_korean detectKo (langText e) = true
      · simp only [processEntry, hpp]
        rw [if_neg hr, if_neg hr, if_pos hl, if_pos hl]
        exact ⟨rfl, rfl⟩
      · simp only [processEntry, hpp]
        rw [if_neg hr, if_neg hr, if_neg hl, if_neg hl]
        have h1 : ∀ xs : List String,
            ¬ ((make_keys (pyStrip e.link) (pyStrip e.title)).1 ≠ "" ∧
               (make_keys (pyStrip e.link) (pyStrip e.title)).1 ∈ xs) :=
          fun xs hcon => hcon.1 huk
        rw [if_neg (h1 bU), if_neg (h1 bU')]
        by_cases ht2 : (make_keys (pyStrip e.link) (pyStrip e.title)).2 ≠ "" ∧
            (make_keys (pyStrip e.link) (pyStrip e.title)).2 ∈ bT
        · rw [if_pos ht2, if_pos ht2]
          exact ⟨rfl, rfl⟩
        · rw [if_neg ht2, if_neg ht2, if_neg (h1 seenU), if_neg (h1 seenU')]
          by_cases ht4 : (make_keys (pyStrip e.link) (pyStrip e.title)).2 ≠ "" ∧
              (make_keys (pyStrip e.link) (pyStrip e.title)).2 ∈ seenT
          · rw [if_pos ht4, if_pos ht4]
            exact ⟨rfl, rfl⟩
          · rw [if_neg ht4, if_neg ht4]
            exact ⟨rfl, rfl⟩

/-- C3 counterexample: the empty key IS inserted into the batch key sets
    — `batch_url_keys.add(url_key)` runs unconditionally on acceptance —
    so after an entry with an empty URL and empty title is accepted,
    `""` is a member of both batch sets, contradicting "never inserted
    into any key set". -/
theorem empty_key_inserted_cex :
    "" ∈ (processBatch cfgOk.parse cfgOk.detectKo 0 [] [] [eEmpty]).batch_url_keys ∧
    "" ∈ (processBatch cfgOk.parse cfgOk.detectKo 0 [] [] [eEmpty]).batch_title_keys ∧
    (processBatch cfgOk.parse cfgOk.detectKo 0 [] [] [eEmpty]).collected.length = 1 := by
  exact ⟨by decide, by decide, by decide⟩

/-- C3 (amended): the empty key is never inserted into the SEEN key sets
    and is never compared for membership — every membership gate is
    guarded by key non-emptiness, so for an empty-URL candidate the
    outcome does not depend on either URL key set and empty-vs-empty is
    never a match — but the empty key CAN be inserted into the batch key
    sets (the `add` calls are unguarded), harmlessly. -/
theorem empty_key_policy (parse : String → Option Int) (detectKo : String → Bool)
    (now : Int) (e : Entry) (he : pyStrip e.link = "")
    (seenU seenU' seenT bU bU' bT : List String) (c : List Candidate) :
    (∀ items : List SeenItem, "" ∉ seen_url_keys items ∧ "" ∉ seen_title_keys items) ∧
    (processEntry parse detectKo now seenU seenT ⟨bU, bT, c⟩ e).collected =
      (processEntry parse detectKo now seenU' seenT ⟨bU', bT, c⟩ e).collected ∧
    (processEntry parse detectKo now seenU seenT ⟨bU, bT, c⟩ e).batch_title_keys =
      (processEntry parse detectKo now seenU' seenT ⟨bU', bT, c⟩ e).batch_title_keys := by
  refine ⟨?_, processEntry_empty_url_invariant parse detectKo now seenT bT c e he seenU seenU' bU bU'⟩
  intro items
  constructor
  · intro hmem
    simp only [seen_url_keys, List.mem_map, List.mem_filter, decide_eq_true_eq] at hmem
    obtain ⟨it, ⟨_, hne⟩, heq⟩ := hmem
    exact hne heq
  · intro hmem
    simp only [seen_title_keys, List.mem_map, List.mem_filter, decide_eq_true_eq] at hmem
    obtain ⟨it, ⟨_, hne⟩, heq⟩ := hmem
    exact hne heq

theorem empty_key_policy_witness :
    pyStrip eEmpty.link = "" ∧
    ((∀ items : List SeenItem, "" ∉ seen_url_keys items ∧ "" ∉ seen_title_keys items) ∧
     (processEntry cfgOk.parse cfgOk.detectKo 0 ["x"] [] ⟨[""], [], []⟩ eEmpty).collected =
       (processEntry cfgOk.parse cfgOk.detectKo 0 [] [] ⟨[], [], []⟩ eEmpty).collected ∧
     (processEntry cfgOk.parse cfgOk.detectKo 0 ["x"] [] ⟨[""], [], []⟩ eEmpty).batch_title_keys =
       (processEntry cfgOk.parse cfgOk.detectKo 0 [] [] ⟨[], [], []⟩ eEmpty).batch_title_keys) :=
  ⟨by decide,
   empty_key_policy cfgOk.parse cfgOk.detectKo 0 eEmpty (by decide) ["x"] [] [] [""] [] [] []⟩

/-- C4 counterexample: a run that completes normally with no accepted
    candidate (here: stale store, no fetched entries) sends the
    "no news" notice and returns WITHOUT calling `save_seen` — the
    pruned seen-set (here `[]`) is not written back, and the stale disk
    state survives to the next run. -/
theorem empty_run_not_saved_cex :
    runMain cfgOk 0 "t0" [staleItem] [] = RunOutcome.noNew ∧
    saveCalled (runMain cfgOk 0 "t0" [staleItem] []) = false ∧
    persistedAfter [staleItem] (runMain cfgOk 0 "t0" [staleItem] []) = [staleItem] ∧
    prune_seen cfgOk.parse [staleItem] 0 = [] := by
  exact ⟨by decide, by decide, by decide, by decide⟩

/-- C4 (amended): the load-prune-append-save cycle persists the seen-set
    only on runs in which at least one candidate is accepted: with a
    successful send, an accepting run saves the pruned-plus-appended
    sequence, while a run with no accepted candidate returns after the
    notice without saving, leaving the persisted state (and hence the
    unpruned history) untouched. -/
theorem save_gated_on_accept (cfg : RunConfig) (now : Int) (nowStr : String)
    (disk : List SeenItem) (entries : List Entry) (hs : cfg.sendOk = true) :
    (collectedOf cfg now disk entries = [] →
      runMain cfg now nowStr disk entries = RunOutcome.noNew ∧
      saveCalled (runMain cfg now nowStr disk entries) = false ∧
      persistedAfter disk (runMain cfg now nowStr disk entries) = disk) ∧
    (collectedOf cfg now disk entries ≠ [] →
      runMain cfg now nowStr disk entries =
        RunOutcome.delivered (prune_seen cfg.parse disk now ++
          (assembleDigest cfg.maxItems (collectedOf cfg now disk entries)).map
            (toSeenItem nowStr)) ∧
      saveCalled (runMain cfg now nowStr disk entries) = true) := by
  constructor
  · intro hc
    have hm : runMain cfg now nowStr disk entries = RunOutcome.noNew := by
      simp only [runMain, hs]
      rw [if_pos (by simpa [collectedOf] using hc)]
      simp
    exact ⟨hm, by rw [hm]; rfl, by rw [hm]; rfl⟩
  · intro hc
    have hm : runMain cfg now nowStr disk entries =
        RunOutcome.delivered (prune_seen cfg.parse disk now ++
          (assembleDigest cfg.maxItems (collectedOf cfg now disk entries)).map
            (toSeenItem nowStr)) := by
      simp only [runMain, hs]
      rw [if_neg (by simpa [collectedOf] using hc)]
      simp [collectedOf]
    exact ⟨hm, by rw [hm]; rfl⟩

theorem save_gated_on_accept_witness :
    cfgOk.sendOk = true ∧
    ((collectedOf cfgOk 0 [] [] = [] →
        runMain cfgOk 0 "t0" [] [] = RunOutcome.noNew ∧
        saveCalled (runMain cfgOk 0 "t0" [] []) = false ∧
        persistedAfter [] (runMain cfgOk 0 "t0" [] []) = []) ∧
     (collectedOf cfgOk 0 [] [] ≠ [] →
        runMain cfgOk 0 "t0" [] [] =
          RunOutcome.delivered (prune_seen cfgOk.parse [] 0 ++
            (assembleDigest cfgOk.maxItems (collectedOf cfgOk 0 [] [])).map
              (toSeenItem "t0")) ∧
        saveCalled (runMain cfgOk 0 "t0" [] []) = true)) :=
  ⟨rfl, save_gated_on_accept cfgOk 0 "t0" [] [] rfl⟩

/-- C6: two candidates in one batch with identical non-empty normalized
    URLs, both passing the recency and language gates, the first passing
    the dedup gates against an empty batch and the seen sets: exactly
    one is accepted — the second is rejected by the same-run batch URL
    key set. -/
theorem same_url_one_accepted (parse : String → Option Int) (detectKo : String → Bool)
    (now : Int) (seenU seenT : List String) (e1 e2 : Entry) (p1 p2 : Int)
    (hurl : normalize_url (pyStrip e1.link) = normalize_url (pyStrip e2.link))
    (hne : normalize_url (pyStrip e1.link) ≠ "")
    (hp1 : parse_published parse e1 = some p1) (hr1 : ¬ p1 < now - 12 * 3600)
    (hl1 : is_korean detectKo (langText e1) = false)
    (hd1 : dedupReject seenU seenT emptyBatch
             (make_keys (pyStrip e1.link) (pyStrip e1.title)).1
             (make_keys (pyStrip e1.link) (pyStrip e1.title)).2 = false)
    (hp2 : parse_published parse e2 = some p2) (hr2 : ¬ p2 < now - 12 * 3600)
    (hl2 : is_korean detectKo (langText e2) = false) :
    (processBatch parse detectKo now seenU seenT [e1, e2]).collected.length = 1 := by
  have hn1 : pyStrip e1.link ≠ "" := by
    intro hh
    rw [hh, normalize_url_of_empty] at hne
    exact hne rfl
  have hn2 : pyStrip e2.link ≠ "" := by
    intro hh
    rw [hurl, hh, normalize_url_of_empty] at hne
    exact hne rfl
  have hk1 := make_keys_fst_of_ne hn1 (pyStrip e1.title)
  have hk2 := make_keys_fst_of_ne hn2 (pyStrip e2.title)
  have hkeq : (make_keys (pyStrip e2.link) (pyStrip e2.title)).1 =
      (make_keys (pyStrip e1.link) (pyStrip e1.title)).1 := by
    rw [hk1, hk2, hurl]
  have hkne : (make_keys (pyStrip e2.link) (pyStrip e2.title)).1 ≠ "" := by
    rw [hk2]
    exact sha_ne_empty _
  have hstep1 := processEntry_accept parse detectKo now seenU seenT emptyBatch e1 p1
    hp1 hr1 hl1 hd1
  simp only [processBatch, List.foldl_cons, List.foldl_nil]
  rw [processEntry_skip_batch_url parse detectKo now seenU seenT
      (processEntry parse detectKo now seenU seenT emptyBatch e1) e2 p2 hp2 hr2 hl2
      ⟨hkne, by rw [hstep1, hkeq]; simp [emptyBatch]⟩]
  rw [hstep1]
  simp [emptyBatch]

theorem same_url_one_accepted_witness :
    (normalize_url (pyStrip eUrl.link) = normalize_url (pyStrip eUrl.link) ∧
     normalize_url (pyStrip eUrl.link) ≠ "" ∧
     parse_published cfgOk.parse eUrl = some 0 ∧
     ¬ (0 : Int) < 0 - 12 * 3600 ∧
     is_korean cfgOk.detectKo (langText eUrl) = false ∧
     dedupReject [] [] emptyBatch (make_keys (pyStrip eUrl.link) (pyStrip eUrl.title)).1
       (make_keys (pyStrip eUrl.link) (pyStrip eUrl.title)).2 = false) ∧
    (processBatch cfgOk.parse cfgOk.detectKo 0 [] [] [eUrl, eUrl]).collected.length = 1 :=
  ⟨⟨rfl, by decide, by decide, by decide, by decide, by decide⟩,
   same_url_one_accepted cfgOk.parse cfgOk.detectKo 0 [] [] eUrl eUrl 0 0 rfl (by decide)
     (by decide) (by decide) (by decide) (by decide) (by decide) (by decide) (by decide)⟩

/-- C10: everything appended to the seen-set on a delivering run comes
    from the truncated digest: the saved sequence is exactly the pruned
    store followed by the image of the at-most-`MAX_ITEMS` digest
    entries, each of which is one of the accepted candidates — so an
    accepted candidate dropped by truncation contributes nothing to the
    persisted seen-set. -/
theorem appended_entries_from_digest (cfg : RunConfig) (now : Int) (nowStr : String)
    (disk : List SeenItem) (entries : List Entry) (hs : cfg.sendOk = true)
    (hc : collectedOf cfg now disk entries ≠ []) :
    runMain cfg now nowStr disk entries =
      RunOutcome.delivered (prune_seen cfg.parse disk now ++
        (assembleDigest cfg.maxItems (collectedOf cfg now disk entries)).map
          (toSeenItem nowStr)) ∧
    (assembleDigest cfg.maxItems (collectedOf cfg now disk entries)).length ≤ cfg.maxItems ∧
    (∀ c ∈ assembleDigest cfg.maxItems (collectedOf cfg now disk entries),
      c ∈ collectedOf cfg now disk entries) := by
  refine ⟨?_, ?_, ?_⟩
  · simp only [runMain, hs]
    rw [if_neg (by simpa [collectedOf] using hc)]
    simp [collectedOf]
  · simp only [assembleDigest]
    simp [List.length_take]
  · intro c hcmem
    simp only [assembleDigest] at hcmem
    have h1 : c ∈ sortDesc (collectedOf cfg now disk entries) :=
      (List.take_sublist _ _).subset hcmem
    exact (sortDesc_perm _).subset h1

theorem appended_entries_from_digest_witness :
    cfgOk.sendOk = true ∧
    collectedOf cfgOk 0 [staleItem] [eEmpty] ≠ [] ∧
    (runMain cfgOk 0 "t0" [staleItem] [eEmpty] =
       RunOutcome.delivered (prune_seen cfgOk.parse [staleItem] 0 ++
         (assembleDigest cfgOk.maxItems (collectedOf cfgOk 0 [staleItem] [eEmpty])).map
           (toSeenItem "t0")) ∧
     (assembleDigest cfgOk.maxItems (collectedOf cfgOk 0 [staleItem] [eEmpty])).length ≤
       cfgOk.maxItems ∧
     (∀ c ∈ assembleDigest cfgOk.maxItems (collectedOf cfgOk 0 [staleItem] [eEmpty]),
       c ∈ collectedOf cfgOk 0 [staleItem] [eEmpty])) :=
  ⟨rfl, by decide,
   appended_entries_from_digest cfgOk 0 "t0" [staleItem] [eEmpty] rfl (by decide)⟩
